import Mathlib

/-!
Shallow embedding of the agentic-loop core of the `agentic-solaris` repository:
the conversation data model and history pruning of `AgentService`, the
tool-call processing and turn budget of `AgentService.runTask`, the
completion probe `AgentService.checkIfComplete`, the retrying chat client
`LlmService.chat`, the tab-governing wrapper `PlaywrightWrapperService`
(both the `src/services` variant and the post-hoc-enforcement variant),
and the Puppeteer-backed `McpService.callTool`.

External effects (the LLM endpoint, the MCP gateway, JSON parsing, clock
reads) are modelled as explicit oracle parameters; every wrapper-level
decision, message construction and control path is translated from the
TypeScript source.
-/

namespace Solaris

/-- A content part of a tool result, as produced by the MCP gateway:
`{type: "text"}`, `{type: "image", mimeType, data}` (base64 payload), or any
other shape, carried by its JSON serialization (the code falls back to
`JSON.stringify(c)` for unknown kinds). -/
inductive Part
  | text (t : String)
  | image (mimeType : String) (data : String)
  | other (json : String)
deriving DecidableEq, Repr

/-- A tool result: ordered content parts plus the failure flag
(`CallToolResult` / `ToolResult` in the source). -/
structure CallToolResult where
  content : List Part
  isError : Bool
deriving DecidableEq, Repr

/-- A tool call requested by the model: id, function name, and the raw
JSON-encoded argument string (`""` models an absent/falsy argument field,
matching the `if (toolCall.function.arguments)` truthiness test). -/
structure ToolCall where
  id : String
  name : String
  arguments : String
deriving DecidableEq, Repr

/-- The model message returned by a chat completion: optional text content
and the (possibly empty) list of requested tool calls. -/
structure ModelMsg where
  content : Option String
  toolCalls : List ToolCall
deriving DecidableEq, Repr

/-- A part of a multi-part user message (`{type:"text"}` or
`{type:"image_url"}` in the OpenAI message schema). -/
inductive UserPart
  | text (s : String)
  | imageUrl (url : String)
deriving DecidableEq, Repr

/-- A conversation message as pushed by `AgentService.runTask`. -/
inductive Msg
  | system (content : String)
  | user (content : String)
  | userParts (parts : List UserPart)
  | assistant (content : Option String) (toolCalls : List ToolCall)
  | tool (toolCallId : String) (content : String)
deriving DecidableEq, Repr

/-- `msg.role === "assistant"`. -/
def Msg.isAssistant : Msg → Bool
  | .assistant _ _ => true
  | _ => false

/-- `AgentService.KEEP_RECENT_TURNS`. -/
def KEEP_RECENT_TURNS : Nat := 8

/-- The placeholder system message spliced in by pruning. -/
def prunedPlaceholder (removeCount : Nat) : Msg :=
  .system ("[Context pruned: " ++ toString removeCount ++
    " older messages removed to manage tokens]")

/-- `AgentService.truncateOldToolResults` (src/src/services/AgentService.ts,
lines 32-56): counts assistant messages; when the count exceeds
`KEEP_RECENT_TURNS`, computes `removeCount = length - 2 - KEEP_RECENT_TURNS*3`
(a JS number, possibly negative, hence `Int`) and, when positive, splices the
middle out: `messages.splice(2, removeCount, placeholder)`. -/
def truncateOldToolResults (messages : List Msg) : List Msg :=
  let turnCount := (messages.filter Msg.isAssistant).length
  if turnCount > KEEP_RECENT_TURNS then
    let keepFromEnd := KEEP_RECENT_TURNS * 3
    let removeCount : Int := (messages.length : Int) - 2 - (keepFromEnd : Int)
    if removeCount > 0 then
      messages.take 2 ++ [prunedPlaceholder removeCount.toNat] ++
        messages.drop (2 + removeCount.toNat)
    else
      messages
  else
    messages

/-- Rendering of one result part into the tool-result message string
(`runTask`, lines 240-269): text parts pass through, image parts become the
placeholder `[Image captured: <mimeType>]` (the raw payload never enters the
tool channel), anything else is its JSON serialization. -/
def renderPart : Part → String
  | .text t => t
  | .image mimeType _ => "[Image captured: " ++ mimeType ++ "]"
  | .other j => j

/-- The `imageContent` variable of `runTask`: each image part overwrites it
while the parts are mapped in order, so the LAST image of the list survives
(`none` when the list holds no image). -/
def lastImage (parts : List Part) : Option (String × String) :=
  parts.foldl
    (fun acc p => match p with
      | .image m d => some (m, d)
      | _ => acc)
    none

/-- `data:<mimeType>;base64,<data>` as built for the injected user message. -/
def imageDataUrl (mimeType data : String) : String :=
  "data:" ++ mimeType ++ ";base64," ++ data

/-- The fixed text part of the injected image-bearing user message. -/
def imageIntroText : String := "Here is the image captured by the tool:"

/-- The messages `runTask` appends for one successfully executed tool call
(lines 237-287): the tool-result message whose content is the
newline-join of the rendered parts, followed — when an image part was seen —
by one user message carrying the intro text and the image as a data URL. -/
def toolResultMessages (toolCallId : String) (parts : List Part) : List Msg :=
  let content := String.intercalate "\n" (parts.map renderPart)
  let toolMsg := Msg.tool toolCallId content
  match lastImage parts with
  | none => [toolMsg]
  | some (m, d) =>
      [toolMsg,
       Msg.userParts [UserPart.text imageIntroText,
                      UserPart.imageUrl (imageDataUrl m d)]]

/-- `true` for an image part. -/
def Part.isImage : Part → Bool
  | .image _ _ => true
  | _ => false

/-- The oracle environment of the agentic loop: the chat endpoint (indexed by
the turn counter and given the messages-with-ephemeral-context), the tool
executor behind `this.mcp.callTool` (indexed by the turn; `Except.error`
models a thrown exception; the `browser_take_screenshot` filename rewrite
only alters the argument payload handed to this oracle), the `JSON.parse`
oracle (`none` = parse throws), and the per-turn `browser_tabs` listing used
to build the ephemeral context note. -/
structure LoopEnv where
  llm : Nat → List Msg → Except String ModelMsg
  exec : Nat → ToolCall → Except String CallToolResult
  parse : String → Option String
  tabsCtx : Nat → Except String CallToolResult

/-- `c.text` as read by `content.map(c => c.text).join(...)`: defined only
for text parts; JS `undefined` becomes `""` under `Array.join`. -/
def partTextJs : Part → String
  | .text t => t
  | _ => ""

/-- The error tool-result content for unparsable JSON arguments. -/
def invalidJsonMsg : String := "Error: Invalid JSON arguments provided."

/-- The error tool-result content for a thrown tool execution
(`Error: ${error.message} ` — note the trailing space in the source). -/
def execErrorMsg (e : String) : String := "Error: " ++ e ++ " "

/-- Processing of ONE tool call inside the per-turn `for` loop
(lines 198-301): parse the argument string when truthy (on failure push the
JSON-error tool message and `continue`), then execute; a thrown execution is
caught and becomes an error tool message; a successful one becomes the
messages of `toolResultMessages`. Returns the messages appended for this
call. -/
def processToolCall (env : LoopEnv) (turn : Nat) (tc : ToolCall) : List Msg :=
  let parsedOk : Bool :=
    if tc.arguments = "" then true
    else (env.parse tc.arguments).isSome
  if parsedOk then
    match env.exec turn tc with
    | .ok result => toolResultMessages tc.id result.content
    | .error e => [Msg.tool tc.id (execErrorMsg e)]
  else
    [Msg.tool tc.id invalidJsonMsg]

/-- The whole per-turn tool-call loop: each call of the turn is processed in
order and its messages appended; no failure of one call stops the loop. -/
def processToolCalls (env : LoopEnv) (turn : Nat) (tcs : List ToolCall) : List Msg :=
  tcs.flatMap (processToolCall env turn)

/-- The fixed vision/tab-management/error-recovery guidance appended to the
system message by `runTask` (the `visionInstructions` template literal,
lines 77-125), parameterized by `config.TARGET_HOST`. -/
def visionInstructions (targetHost : String) : String :=
  "\nDOMAIN RESTRICTION: You must STRICTLY stay on " ++ targetHost ++
  ". If redirected elsewhere unexpectedly, navigate back immediately.\n\nVISION TOOLS (coordinate-based):\n- browser_mouse_click_xy: Click at (x, y) coordinates\n- browser_mouse_drag_xy: Drag from (startX, startY) to (endX, endY)  \n- browser_mouse_move_xy: Move mouse to (x, y)\n\nIMPORTANT: Do NOT use page.dragAndDrop or locator.dragAndDrop inside browser_run_code - they are unreliable. ALWAYS use browser_mouse_drag_xy for dragging.\n\nTAB MANAGEMENT:\n- You have access to the list of open tabs in the context.\n- If a new tab opens (e.g., after clicking a survey link), check the \"Open Tabs\" list.\n- Use browser_tabs tool with action: \"select\" and the index to switch to the correct tab.\n- ALWAYS verify you are on the correct tab before performing actions.\n\nFORM INTERACTION:\n- When filling dropdowns, if browser_fill_form fails with \"Element is not a <select> element\", it means the dropdown is a custom UI component (div/ul).\n- In that case, DO NOT use browser_fill_form. Instead:\n  1. Click the dropdown trigger element.\n  2. Click the desired option element.\n\nSURVEY BEHAVIOR:\n- **NEVER SKIP QUESTIONS**: Always select an answer that aligns with the persona. If optional, answer anyway.\n- **Complete Question BEFORE clicking Next**: Fully answer the current question before navigating.\n- **Sequential Actions**: Do NOT combine \"answering\" and \"clicking Next\" in the same turn if there\x27s risk of the page changing. Select answer, wait for UI update if needed, THEN click Next.\n\nCAPTCHA/BOT DETECTION:\n- NEVER skip or ignore CAPTCHA or bot detection screens.\n- For TEXT CAPTCHAs (distorted text images like \"Enter the text you see\"):\n  1. Use browser_take_screenshot to capture the page visually\n  2. LOOK at the image carefully - read the distorted letters/numbers\n  3. Type EXACTLY what you see in the image (case-sensitive)\n  4. Common confusions: I vs l vs 1, O vs 0, S vs 5, Z vs 2\n- For CLICK CAPTCHAs (select images, puzzles):\n  1. Use browser_take_screenshot to see the visual challenge\n  2. Use browser_mouse_click_xy with coordinates to click the correct areas\n- For DRAG CAPTCHAs (sliders, drag-and-drop):\n  1. Use browser_take_screenshot to see the puzzle\n  2. Use browser_mouse_drag_xy to perform the drag action\n- ALWAYS verify your CAPTCHA solution before submitting.\n\nTHINKING OUT LOUD:\n- Before calling any tool, output a brief \"thought\" explaining your reasoning and what you plan to do next.\n\nERROR HANDLING:\n- \"Ref not found\": Your snapshot is stale. IMMEDIATELY call browser_snapshot to get fresh state. Do not retry without a new snapshot.\n- \"Execution context was destroyed\": The page navigated. Call browser_snapshot to see the new page.\n"

/-- Outcome of a `runTask` call: the returned final text, the thrown
max-turns error (recording the value of the turn counter when it fired), or
a rethrown chat-endpoint error. -/
inductive RunResult
  | completed (text : String)
  | maxTurnsError (atTurn : Nat)
  | llmError (e : String)
deriving DecidableEq, Repr

/-- The `while (true)` loop of `runTask` (lines 150-313): increment the turn
counter; throw once it exceeds `maxTurns`; fetch the tab listing (failures
swallowed, leaving an empty context note); call the chat endpoint on the
conversation plus the ephemeral context note (endpoint errors are rethrown
by the outer catch); push the assistant message; with tool calls, process
them all, prune history, and iterate; without, return the content. -/
def runLoop (env : LoopEnv) (maxTurns : Nat) (turns : Nat) (messages : List Msg) :
    RunResult :=
  if h : turns + 1 > maxTurns then
    .maxTurnsError (turns + 1)
  else
    let tabContext :=
      match env.tabsCtx (turns + 1) with
      | .ok r =>
          "\n\n[Current Browser Tabs]\n" ++
            String.intercalate "\n" (r.content.map partTextJs)
      | .error _ => ""
    let withContext := messages ++ [Msg.system ("Current Context:" ++ tabContext)]
    match env.llm (turns + 1) withContext with
    | .error e => .llmError e
    | .ok m =>
        let messages1 := messages ++ [Msg.assistant m.content m.toolCalls]
        if m.toolCalls.isEmpty then
          .completed (m.content.getD "")
        else
          runLoop env maxTurns (turns + 1)
            (truncateOldToolResults
              (messages1 ++ processToolCalls env (turns + 1) m.toolCalls))
termination_by maxTurns + 1 - turns
decreasing_by omega

/-- `AgentService.runTask`: seeds the conversation with the system
instructions (caller text plus the fixed vision guidance) and the task, then
runs the loop with the turn counter at 0. -/
def runTask (env : LoopEnv) (targetHost task systemMessage : String)
    (maxTurns : Nat) : RunResult :=
  runLoop env maxTurns 0
    [Msg.system (systemMessage ++ visionInstructions targetHost),
     Msg.user task]

/-- The parsed arguments of the forced `report_status` tool call. -/
structure ReportArgs where
  is_complete : Bool
  summary : String
deriving DecidableEq, Repr

/-- The completion-check prompt built by `checkIfComplete` over the first
8000 characters of the snapshot text. -/
def completionPromptOf (snapshot : String) : String :=
  "Analyze this page snapshot and determine if the survey is complete.\n\nCOMPLETION INDICATORS (any of these = complete):\n- \"Thank you\" or \"Thanks for completing\" messages\n- \"Survey complete\" or \"You\x27re done\" text\n- Reward/points credited confirmation\n- Redirected back to survey dashboard/wall\n- \"Return to surveys\" or similar buttons\n\nNOT COMPLETE indicators:\n- Still on a survey question page\n- \"Next\" or \"Continue\" buttons visible\n- Progress bar not at 100%\n- Error messages about survey\n\nPage Snapshot:\n" ++
  snapshot.take 8000

/-- `AgentService.checkIfComplete` (lines 316-387). Oracles: the
`browser_snapshot` tool call (`Except.error` = thrown), the single chat call
(given the built prompt; the request also carries the `report_status` schema
and a forced tool choice, which only shape the reply of the oracle), and the
`JSON.parse` of the report arguments (`none` = parse throws, caught by the
surrounding try). A snapshot throw returns `false`; a chat error or parse
error is caught and falls through to `false`; only a leading `report_status`
tool call with `is_complete` delivers `true`. -/
def checkIfComplete
    (snapshot : Except String CallToolResult)
    (llm : String → Except String ModelMsg)
    (parse : String → Option ReportArgs) : Bool :=
  match snapshot with
  | .error _ => false
  | .ok result =>
      let snap := String.intercalate "\n" (result.content.map partTextJs)
      match llm (completionPromptOf snap) with
      | .error _ => false
      | .ok resp =>
          match resp.toolCalls.head? with
          | some tc =>
              if tc.name = "report_status" then
                match parse tc.arguments with
                | some args => args.is_complete
                | none => false
              else false
          | none => false

/-- The error object thrown by the chat-completions SDK call, as inspected
by `LlmService.chat` (src/unnamed/part_004): `code`, `type`, `message` and
`status` (absent fields are `none`, mirroring JS `undefined`). -/
structure LlmError where
  code : Option String
  ty : Option String
  message : String
  status : Option Int
deriving DecidableEq, Repr

/-- Does the character list start with the given needle? -/
def startsWithChars : List Char → List Char → Bool
  | _, [] => true
  | [], _ :: _ => false
  | a :: as, b :: bs => a == b && startsWithChars as bs

/-- Does the character list contain the needle as a contiguous run? -/
def hasSubChars (hay needle : List Char) : Bool :=
  match hay with
  | [] => needle.isEmpty
  | _ :: rest => startsWithChars hay needle || hasSubChars rest needle

/-- `error.message.includes(t)` of JS — substring containment (the source
guards it by the truthiness of `error.message`, handled at the call
site). -/
def strIncludes (s t : String) : Bool :=
  hasSubChars s.data t.data

/-- The `isRetryable` classification of `LlmService.chat` (part_004,
lines 38-46): stream-close code, system-type errors, or a message containing
a transient-network marker (the `error.message &&` truthiness guard makes an
empty message fail the clause). -/
def isRetryable (e : LlmError) : Bool :=
  e.code = some "ERR_STREAM_PREMATURE_CLOSE" ||
  e.ty = some "system" ||
  (e.message != "" &&
    (strIncludes e.message "FetchError" ||
     strIncludes e.message "network" ||
     strIncludes e.message "connection"))

/-- JS `error.status !== 429` (an absent status is `!== 429`). -/
def statusNe429 : Option Int → Bool
  | none => true
  | some v => v != 429

/-- JS `error.status < 500` (an absent status makes the comparison false). -/
def statusLt500 : Option Int → Bool
  | none => false
  | some v => v < 500

/-- Observable outcome of one `LlmService.chat` call: the returned response
or the thrown error (`Except.error none` = the degenerate `throw lastError`
with no attempt made), the backoff delays slept (ms, in order), and how many
SDK `create` calls were made. -/
structure ChatOutcome where
  result : Except (Option LlmError) ModelMsg
  sleeps : List Nat
  calls : Nat
deriving Repr

/-- The `while (attempt < maxRetries)` retry loop of `LlmService.chat`
(part_004, lines 22-66), with the SDK call as an oracle indexed by the
number of calls already made. A non-retryable client error
(`!isRetryable && status !== 429 && status < 500`) is thrown at once;
otherwise `attempt` is incremented, and either the loop breaks (throwing the
last error) or sleeps `2^(attempt-1) * 1000` ms and retries. -/
def chatGo (create : Nat → Except LlmError ModelMsg) (maxRetries : Nat)
    (attempt : Nat) (lastError : Option LlmError) (sleeps : List Nat)
    (calls : Nat) : ChatOutcome :=
  if _h : attempt < maxRetries then
    match create calls with
    | .ok r => ⟨.ok r, sleeps, calls + 1⟩
    | .error e =>
        if !isRetryable e && statusNe429 e.status && statusLt500 e.status then
          ⟨.error (some e), sleeps, calls + 1⟩
        else
          if attempt + 1 ≥ maxRetries then
            ⟨.error (some e), sleeps, calls + 1⟩
          else
            chatGo create maxRetries (attempt + 1) (some e)
              (sleeps ++ [2 ^ attempt * 1000]) (calls + 1)
  else
    ⟨.error lastError, sleeps, calls⟩
termination_by maxRetries - attempt
decreasing_by omega

/-- `LlmService.chat` (part_004): the retry loop entered with
`maxRetries = 5`, `attempt = 0` and no recorded error. The delay slept
before retry number `attempt+1` is `Math.pow(2, attempt) * 1000` (the source
computes `2^(attempt-1)*1000` after the increment). -/
def llmChat (create : Nat → Except LlmError ModelMsg) : ChatOutcome :=
  chatGo create 5 0 none [] 0

/-- A tab record as parsed from the `browser_tabs` listing: index, the
`(current)` marker, and URL. -/
structure Tab where
  index : Nat
  active : Bool
  url : String
deriving DecidableEq, Repr

/-- The `tabActivity : Map<number, number>` of the wrapper, as an
association list (most recent binding first). -/
abbrev Activity := List (Nat × Nat)

/-- `Map.get` (`none` = JS `undefined`). -/
def Activity.get (a : Activity) (k : Nat) : Option Nat :=
  (a.find? (fun p => p.1 == k)).map Prod.snd

/-- `Map.set`. -/
def Activity.set (a : Activity) (k v : Nat) : Activity :=
  (k, v) :: a.filter (fun p => p.1 != k)

/-- `Map.delete`. -/
def Activity.del (a : Activity) (k : Nat) : Activity :=
  a.filter (fun p => p.1 != k)

/-- The argument object forwarded to the MCP gateway (only the fields the
wrapper itself inspects are distinguished). -/
structure ToolArgs where
  action : Option String
  index : Option Nat
  selector : Option String
deriving DecidableEq, Repr

/-- `{ action: "list" }`. -/
def listArgs : ToolArgs := ⟨some "list", none, none⟩

/-- `{ action: "close", index: i }`. -/
def closeArgs (i : Nat) : ToolArgs := ⟨some "close", some i, none⟩

/-- One invocation of the underlying `McpService` from the wrapper: a named
tool call with arguments, or `restart()`. -/
inductive GwCall
  | tool (name : String) (args : ToolArgs)
  | restart
deriving DecidableEq, Repr

/-- An observable event of a wrapper invocation: a gateway call or a
`setTimeout` pause (ms). -/
inductive Ev
  | call (c : GwCall)
  | sleep (ms : Nat)
deriving DecidableEq, Repr

/-- Is this event a forwarded `browser_tabs` new-tab call? -/
def Ev.isNewTabCall : Ev → Bool
  | .call (.tool n args) => n == "browser_tabs" && args.action == some "new"
  | _ => false

/-- The MCP gateway oracle: a state transition returning the tool result or
a thrown error. -/
abbrev Gw (σ : Type) := σ → GwCall → σ × Except String CallToolResult

/-- Oracle bundle for the wrapper: the gateway, and the line-parse of a tab
listing (the regex scan of `getTabsState` of the text content, not itself under
proof; it yields the tab records of a successful listing). -/
structure GwEnv (σ : Type) where
  gw : Gw σ
  parseTabs : CallToolResult → List Tab

/-- Result of `getTabsState`: new gateway state, events, parsed tabs. -/
structure TabsFetch (σ : Type) where
  st : σ
  log : List Ev
  tabs : List Tab

/-- `PlaywrightWrapperService.getTabsState` (lines 32-84): one
`browser_tabs`/`list` gateway call; a thrown call is caught and yields `[]`;
a successful one is parsed line by line. -/
def getTabsState {σ : Type} (env : GwEnv σ) (s : σ) : TabsFetch σ :=
  match env.gw s (.tool "browser_tabs" listArgs) with
  | (s1, .ok r) => ⟨s1, [.call (.tool "browser_tabs" listArgs)], env.parseTabs r⟩
  | (s1, .error _) => ⟨s1, [.call (.tool "browser_tabs" listArgs)], []⟩

/-- Result of one idle sweep: gateway state, activity map, events, and the
indices of the tabs actually closed. -/
structure SweepOut (σ : Type) where
  st : σ
  activity : Activity
  log : List Ev
  closed : List Nat

/-- The `for (const tab of tabs)` body of `cleanupIdleTabs` (lines 104-126):
skip the active tab; a tab with a truthy recorded activity older than the
timeout is closed and the sweep RETURNS at once (a thrown close is caught
and the loop continues); a tab with no (or falsy) recorded activity is
stamped to `now`. -/
def cleanupLoop {σ : Type} (env : GwEnv σ) (now : Nat) (timeoutMs : Int) :
    List Tab → σ → Activity → SweepOut σ
  | [], s, a => ⟨s, a, [], []⟩
  | t :: rest, s, a =>
      if t.active then cleanupLoop env now timeoutMs rest s a
      else
        match Activity.get a t.index with
        | some v =>
            if v ≠ 0 then
              if (now : Int) - (v : Int) > timeoutMs then
                match env.gw s (.tool "browser_tabs" (closeArgs t.index)) with
                | (s1, .ok _) =>
                    ⟨s1, Activity.del a t.index,
                     [.call (.tool "browser_tabs" (closeArgs t.index))], [t.index]⟩
                | (s1, .error _) =>
                    let o := cleanupLoop env now timeoutMs rest s1 a
                    ⟨o.st, o.activity,
                     .call (.tool "browser_tabs" (closeArgs t.index)) :: o.log,
                     o.closed⟩
              else cleanupLoop env now timeoutMs rest s a
            else cleanupLoop env now timeoutMs rest s (Activity.set a t.index now)
        | none => cleanupLoop env now timeoutMs rest s (Activity.set a t.index now)

/-- `PlaywrightWrapperService.cleanupIdleTabs` (lines 91-127): disabled for
a non-positive timeout; otherwise fetch tabs, stamp the active tab to `now`,
and run the sweep loop. -/
def cleanupIdleTabs {σ : Type} (env : GwEnv σ) (now : Nat) (timeoutMs : Int)
    (s : σ) (a : Activity) : SweepOut σ :=
  if timeoutMs ≤ 0 then ⟨s, a, [], []⟩
  else
    let f := getTabsState env s
    let a1 :=
      match f.tabs.find? (·.active) with
      | some t => Activity.set a t.index now
      | none => a
    let o := cleanupLoop env now timeoutMs f.tabs f.st a1
    ⟨o.st, o.activity, f.log ++ o.log, o.closed⟩

/-- Wrapper configuration (constructor arguments of
`PlaywrightWrapperService`). -/
structure WrapperCfg where
  maxPages : Nat
  restartAfterPages : Nat
  pageIdleTimeoutMs : Int
deriving DecidableEq, Repr

/-- The refusal text for `browser_navigate` at the limit. -/
def limitErrNavigate (maxPages : Nat) : String :=
  "Error: Tab limit reached (" ++ toString maxPages ++
  "). Please close a tab first using browser_tabs with action \x27close\x27."

/-- The refusal text for `browser_tabs`/`new` at the limit. -/
def limitErrNewTab (maxPages : Nat) : String :=
  "Error: Tab limit reached (" ++ toString maxPages ++
  "). Cannot create new tab. Please close a tab first using browser_tabs with action \x27close\x27."

/-- The refusal `CallToolResult` returned without forwarding. -/
def limitErrResult (text : String) : CallToolResult :=
  ⟨[.text text], true⟩

/-- `name === "browser_navigate" || (name === "browser_tabs" && args.action
=== "new")`. -/
def createsPageCheck (name : String) (args : ToolArgs) : Bool :=
  name == "browser_navigate" ||
    (name == "browser_tabs" && args.action == some "new")

/-- Observable outcome of one wrapper `callTool`: gateway state, activity
map, lifetime page counter, event log, and the result (`Except.error` =
the call threw). -/
structure CallOut (σ : Type) where
  st : σ
  activity : Activity
  totalPagesCreated : Nat
  log : List Ev
  result : Except String CallToolResult

/-- Steps 3-6 of the `src/services` `callTool` (lines 173-197): execute the
tool (a throw propagates), re-fetch tabs and stamp the active one with a
fresh `Date.now()`, then — for a successful page-creating call — bump the
lifetime counter and possibly restart the browser (a restart throw
propagates after the increment; the counter resets only on success). -/
def pwExec {σ : Type} (env : GwEnv σ) (cfg : WrapperCfg) (now2 : Nat) (s : σ)
    (a : Activity) (tpc : Nat) (name : String) (args : ToolArgs)
    (log0 : List Ev) (createsPage : Bool) : CallOut σ :=
  match env.gw s (.tool name args) with
  | (s1, .error e) => ⟨s1, a, tpc, log0 ++ [.call (.tool name args)], .error e⟩
  | (s1, .ok result) =>
      let f := getTabsState env s1
      let a1 :=
        match f.tabs.find? (·.active) with
        | some t => Activity.set a t.index now2
        | none => a
      let log1 := log0 ++ [.call (.tool name args)] ++ f.log
      if createsPage && !result.isError then
        if cfg.restartAfterPages > 0 ∧ tpc + 1 ≥ cfg.restartAfterPages then
          match env.gw f.st .restart with
          | (s2, .error e) => ⟨s2, a1, tpc + 1, log1 ++ [.call .restart], .error e⟩
          | (s2, .ok _) => ⟨s2, a1, 0, log1 ++ [.call .restart], .ok result⟩
        else ⟨f.st, a1, tpc + 1, log1, .ok result⟩
      else ⟨f.st, a1, tpc, log1, .ok result⟩

/-- `PlaywrightWrapperService.callTool` of `src/src/services`
(lines 129-197): idle sweep, then — for a page-creating call with a nonzero
ceiling — fetch the page count and refuse `browser_navigate`-with-zero-tabs
or `browser_tabs`/`new` at the ceiling (returning the failure result without
executing), else execute. `now1` models the `Date.now()` read of the sweep, `now2` that of the
post-execution stamp. -/
def pwCallTool {σ : Type} (env : GwEnv σ) (cfg : WrapperCfg) (now1 now2 : Nat)
    (s : σ) (a : Activity) (tpc : Nat) (name : String) (args : ToolArgs) :
    CallOut σ :=
  let sw := cleanupIdleTabs env now1 cfg.pageIdleTimeoutMs s a
  let createsPage := createsPageCheck name args
  if createsPage && (cfg.maxPages != 0) then
    let f := getTabsState env sw.st
    let count := f.tabs.length
    if name == "browser_navigate" && (count == 0) then
      if count ≥ cfg.maxPages then
        ⟨f.st, sw.activity, tpc, sw.log ++ f.log,
         .ok (limitErrResult (limitErrNavigate cfg.maxPages))⟩
      else
        pwExec env cfg now2 f.st sw.activity tpc name args (sw.log ++ f.log)
          createsPage
    else if name == "browser_tabs" && args.action == some "new" then
      if count ≥ cfg.maxPages then
        ⟨f.st, sw.activity, tpc, sw.log ++ f.log,
         .ok (limitErrResult (limitErrNewTab cfg.maxPages))⟩
      else
        pwExec env cfg now2 f.st sw.activity tpc name args (sw.log ++ f.log)
          createsPage
    else
      pwExec env cfg now2 f.st sw.activity tpc name args (sw.log ++ f.log)
        createsPage
  else
    pwExec env cfg now2 sw.st sw.activity tpc name args sw.log createsPage

/-- The comparator of the excess-tab sort in the part_003 variant
(`sort((a, b) => a.lastActive - b.lastActive)`): ascending last-activity. -/
def byActivity : (Tab × Nat) → (Tab × Nat) → Prop := fun x y => x.2 ≤ y.2

instance : DecidableRel byActivity :=
  fun x y => inferInstanceAs (Decidable (x.2 ≤ y.2))

instance : IsTotal (Tab × Nat) byActivity := ⟨fun x y => Nat.le_total x.2 y.2⟩

instance : IsTrans (Tab × Nat) byActivity :=
  ⟨fun _ _ _ h1 h2 => Nat.le_trans h1 h2⟩

/-- The inactive tabs decorated with `tabActivity.get(index) || 0` and
sorted oldest-activity-first, as built by the part_003 post-hoc
enforcement. -/
def inactiveByActivity (tabs : List Tab) (a : Activity) : List (Tab × Nat) :=
  List.insertionSort byActivity
    ((tabs.filter (fun t => !t.active)).map
      (fun t => (t, (Activity.get a t.index).getD 0)))

/-- The `for (let i = 0; i < excessCount && i < inactiveTabs.length; i++)`
closure loop of the part_003 variant (lines 700-713): close each selected
tab (a throw is caught and the loop continues), drop it from the activity
map, and wait 500 ms after each successful closure. Returns state, activity,
events and the indices successfully closed, in order. -/
def closeExcessLoop {σ : Type} (env : GwEnv σ) :
    List (Tab × Nat) → σ → Activity → σ × Activity × List Ev × List Nat
  | [], s, a => (s, a, [], [])
  | (t, _) :: rest, s, a =>
      match env.gw s (.tool "browser_tabs" (closeArgs t.index)) with
      | (s1, .ok _) =>
          let r := closeExcessLoop env rest s1 (Activity.del a t.index)
          (r.1, r.2.1,
           .call (.tool "browser_tabs" (closeArgs t.index)) :: .sleep 500 :: r.2.2.1,
           t.index :: r.2.2.2)
      | (s1, .error _) =>
          let r := closeExcessLoop env rest s1 a
          (r.1, r.2.1,
           .call (.tool "browser_tabs" (closeArgs t.index)) :: r.2.2.1,
           r.2.2.2)

/-- Observable outcome of the part_003 `callTool`, additionally exposing the
post-hoc enforcement segment of the log and the excess tabs it closed. -/
structure CallOutV2 (σ : Type) where
  st : σ
  activity : Activity
  totalPagesCreated : Nat
  log : List Ev
  enforceLog : List Ev
  excessClosed : List Nat
  result : Except String CallToolResult

/-- Execution tail of the part_003 `callTool` (lines 672-730): execute,
stamp the active tab, then — when a ceiling is configured, the result is not
an error, and the observed tab count exceeds the ceiling — close the excess
inactive tabs oldest-activity-first with a 500 ms pause after each closure;
finally the page-creation counter and restart threshold as in the other
variant. -/
def pwExecV2 {σ : Type} (env : GwEnv σ) (cfg : WrapperCfg) (now2 : Nat)
    (s : σ) (a : Activity) (tpc : Nat) (name : String) (args : ToolArgs)
    (log0 : List Ev) (createsPage : Bool) : CallOutV2 σ :=
  match env.gw s (.tool name args) with
  | (s1, .error e) =>
      ⟨s1, a, tpc, log0 ++ [.call (.tool name args)], [], [], .error e⟩
  | (s1, .ok result) =>
      let f := getTabsState env s1
      let a1 :=
        match f.tabs.find? (·.active) with
        | some t => Activity.set a t.index now2
        | none => a
      let log1 := log0 ++ [.call (.tool name args)] ++ f.log
      let enforced :
          σ × Activity × List Ev × List Nat :=
        if cfg.maxPages > 0 ∧ result.isError = false ∧
            f.tabs.length > cfg.maxPages then
          let excess := f.tabs.length - cfg.maxPages
          closeExcessLoop env ((inactiveByActivity f.tabs a1).take excess) f.st a1
        else (f.st, a1, [], [])
      let s2 := enforced.1
      let a2 := enforced.2.1
      let eLog := enforced.2.2.1
      let eClosed := enforced.2.2.2
      let log2 := log1 ++ eLog
      if createsPage && !result.isError then
        if cfg.restartAfterPages > 0 ∧ tpc + 1 ≥ cfg.restartAfterPages then
          match env.gw s2 .restart with
          | (s3, .error e) =>
              ⟨s3, a2, tpc + 1, log2 ++ [.call .restart], eLog, eClosed, .error e⟩
          | (s3, .ok _) =>
              ⟨s3, a2, 0, log2 ++ [.call .restart], eLog, eClosed, .ok result⟩
        else ⟨s2, a2, tpc + 1, log2, eLog, eClosed, .ok result⟩
      else ⟨s2, a2, tpc, log2, eLog, eClosed, .ok result⟩

/-- The part_003 variant of `callTool` (lines 643-730): idle sweep;
pre-flight admission that blocks only `browser_tabs`/`new` at the ceiling;
then the execution tail with post-hoc enforcement. -/
def pwCallToolV2 {σ : Type} (env : GwEnv σ) (cfg : WrapperCfg)
    (now1 now2 : Nat) (s : σ) (a : Activity) (tpc : Nat) (name : String)
    (args : ToolArgs) : CallOutV2 σ :=
  let sw := cleanupIdleTabs env now1 cfg.pageIdleTimeoutMs s a
  let createsPage := createsPageCheck name args
  if createsPage && (cfg.maxPages > 0 : Bool) then
    let f := getTabsState env sw.st
    let count := f.tabs.length
    if name == "browser_tabs" && args.action == some "new" && count ≥ cfg.maxPages then
      ⟨f.st, sw.activity, tpc, sw.log ++ f.log, [], [],
       .ok (limitErrResult (limitErrNewTab cfg.maxPages))⟩
    else
      pwExecV2 env cfg now2 f.st sw.activity tpc name args (sw.log ++ f.log)
        createsPage
  else
    pwExecV2 env cfg now2 sw.st sw.activity tpc name args sw.log createsPage

/-- `TOOL_NAME_MAP` of `McpService` (src/src/services/McpService.ts,
lines 11-25): the browser aliases plus the identity entries spread from the
active `PUPPETEER_TOOLS`. -/
def TOOL_NAME_MAP : List (String × String) :=
  [("browser_navigate", "puppeteer_navigate"),
   ("browser_screenshot", "puppeteer_screenshot"),
   ("browser_click", "puppeteer_click"),
   ("browser_fill", "puppeteer_fill"),
   ("browser_type", "puppeteer_fill"),
   ("browser_select", "puppeteer_select"),
   ("browser_hover", "puppeteer_hover"),
   ("browser_evaluate", "puppeteer_evaluate"),
   ("browser_snapshot", "puppeteer_get_content"),
   ("browser_take_screenshot", "puppeteer_screenshot"),
   ("puppeteer_navigate", "puppeteer_navigate"),
   ("puppeteer_click", "puppeteer_click"),
   ("puppeteer_fill", "puppeteer_fill"),
   ("puppeteer_select", "puppeteer_select"),
   ("puppeteer_hover", "puppeteer_hover"),
   ("puppeteer_get_content", "puppeteer_get_content")]

/-- `TOOL_NAME_MAP[name] || name`. -/
def mappedName (name : String) : String :=
  ((TOOL_NAME_MAP.find? (fun p => p.1 == name)).map Prod.snd).getD name

/-- The constant stub result for `browser_tabs` over the Puppeteer
backend. -/
def tabsStub : CallToolResult :=
  ⟨[.text "Tabs: 1 tab open (current page)"], false⟩

/-- `{ selector: "body" }`. -/
def bodyArgs : ToolArgs := ⟨none, none, some "body"⟩

/-- `McpService.callTool` (lines 108-183), with the in-process
`PuppeteerService.callTool` as an oracle and the HTML-to-summary regex
pipeline of the snapshot branch (lines 126-175) abstracted as
`formatSnapshot` (producing the full `Page content:` text). Returns the
result (or thrown error) and the list of calls forwarded to Puppeteer. -/
def mcpCallTool (pup : String → ToolArgs → Except String CallToolResult)
    (formatSnapshot : String → String) (name : String) (args : ToolArgs) :
    Except String CallToolResult × List (String × ToolArgs) :=
  let mapped := mappedName name
  if name == "browser_tabs" then
    (.ok tabsStub, [])
  else if name == "browser_snapshot" || mapped == "puppeteer_get_content" then
    match pup "puppeteer_get_content" bodyArgs with
    | .error e => (.error e, [("puppeteer_get_content", bodyArgs)])
    | .ok result =>
        match result.isError, result.content.head? with
        | false, some (.text html) =>
            if html != "" then
              (.ok ⟨[.text (formatSnapshot html)], false⟩,
               [("puppeteer_get_content", bodyArgs)])
            else (.ok result, [("puppeteer_get_content", bodyArgs)])
        | _, _ => (.ok result, [("puppeteer_get_content", bodyArgs)])
  else
    (pup mapped args, [(mapped, args)])

/-- Concrete oracle environment for the image-injection witness. -/
def envImgW : LoopEnv where
  llm := fun _ _ => .ok ⟨none, []⟩
  exec := fun _ _ =>
    .ok ⟨[Part.text "snap", Part.image "image/png" "AAAA"], false⟩
  parse := fun _ => some "parsed"
  tabsCtx := fun _ => .error "unavailable"

/-- Concrete oracle environment for the turn-budget witness: the model
requests a tool call on every turn. -/
def envBudgetW : LoopEnv where
  llm := fun _ _ => .ok ⟨none, [⟨"c", "browser_click", ""⟩]⟩
  exec := fun _ _ => .ok ⟨[Part.text "clicked"], false⟩
  parse := fun _ => none
  tabsCtx := fun _ => .ok ⟨[Part.text "- 0: [Home] (https://host)"], false⟩

/-- Concrete oracle environment for the failure-containment witness: the
argument string `bad` does not parse, and the call with id `e1` throws. -/
def envFailW : LoopEnv where
  llm := fun _ _ => .ok ⟨none, []⟩
  exec := fun _ tc =>
    if tc.id = "e1" then .error "boom" else .ok ⟨[Part.text "done"], false⟩
  parse := fun s => if s = "good" then some "good" else none
  tabsCtx := fun _ => .error "unavailable"

/-- Concrete environment for the idle-sweep analysis: the gateway always
succeeds, and the listing parses to an active tab 0 and an inactive tab 1. -/
def gwIdleCx : GwEnv Unit where
  gw := fun _ _ => ((), .ok ⟨[Part.text "listing"], false⟩)
  parseTabs := fun _ => [⟨0, true, "https://a"⟩, ⟨1, false, "https://b"⟩]

/-- Concrete environment for the limit-refusal analysis: one open tab, a
gateway that always succeeds. -/
def gwLimitCx : GwEnv Unit where
  gw := fun _ _ => ((), .ok ⟨[Part.text "listing"], false⟩)
  parseTabs := fun _ => [⟨0, true, "https://a"⟩]

/-- The post-execution activity stamp (step 4): the tab listed as active
after the call gets `Date.now()`. -/
def stampActive {σ : Type} (env : GwEnv σ) (s1 : σ) (a : Activity)
    (now2 : Nat) : Activity :=
  match (getTabsState env s1).tabs.find? (·.active) with
  | some t => Activity.set a t.index now2
  | none => a

/-- Concrete environment for the post-hoc enforcement witness: three tabs
(one active), ceiling 1. -/
def gwExcessCx : GwEnv Unit where
  gw := fun _ _ => ((), .ok ⟨[Part.text "listing"], false⟩)
  parseTabs := fun _ =>
    [⟨0, true, "https://a"⟩, ⟨1, false, "https://b"⟩, ⟨2, false, "https://c"⟩]

/-- Concrete completion-query model for the C9 witness: always reports a
`report_status` tool call. -/
def llmReportW : String → Except String ModelMsg :=
  fun _ => .ok ⟨none, [⟨"t1", "report_status", "argsjson"⟩]⟩

/-- Concrete argument parse for the C9 witness. -/
def parseReportW : String → Option ReportArgs :=
  fun _ => some ⟨true, "done"⟩

/-! ## Theorems -/

/-- C1: `truncateOldToolResults` never alters, removes or reorders the first
two messages (the pruned conversation starts with exactly the same two
messages), no matter how many assistant turns have elapsed; when it does
prune, it only replaces a contiguous middle segment starting at index 2 by
the single placeholder system message. -/
theorem truncate_preserves_first_two (messages : List Msg) :
    (truncateOldToolResults messages).take 2 = messages.take 2 ∧
    (truncateOldToolResults messages = messages ∨
      ∃ rc : Nat, 0 < rc ∧ 2 + rc ≤ messages.length ∧
        truncateOldToolResults messages =
          messages.take 2 ++ [prunedPlaceholder rc] ++
            messages.drop (2 + rc)) := by
  unfold truncateOldToolResults
  by_cases h1 : (messages.filter Msg.isAssistant).length > KEEP_RECENT_TURNS
  · simp only [h1, if_true]
    by_cases h2 :
        (messages.length : Int) - 2 - ((KEEP_RECENT_TURNS * 3 : Nat) : Int) > 0
    · have hlen : 26 < messages.length := by
        have := h2
        simp only [KEEP_RECENT_TURNS] at this
        omega
      have hnat :
          ((messages.length : Int) - 2 - ((KEEP_RECENT_TURNS * 3 : Nat) : Int)).toNat
            = messages.length - 26 := by
        simp only [KEEP_RECENT_TURNS]
        omega
      simp only [h2, if_true, hnat]
      constructor
      · rw [List.append_assoc,
          List.take_append_of_le_length (by rw [List.length_take]; omega),
          List.take_take]
        simp
      · right
        exact ⟨messages.length - 26, by omega, by omega, rfl⟩
    · simp only [h2, if_false]
      simp
  · simp only [h1, if_false]
    simp

/-- C10: over the Puppeteer backend, `McpService.callTool` answers every
`browser_tabs` call (any action, any arguments) with the constant successful
single-text result `Tabs: 1 tab open (current page)` and forwards nothing to
the underlying Puppeteer service. -/
theorem mcp_browser_tabs_stub
    (pup : String → ToolArgs → Except String CallToolResult)
    (formatSnapshot : String → String) (args : ToolArgs) :
    mcpCallTool pup formatSnapshot "browser_tabs" args =
      (Except.ok ⟨[Part.text "Tabs: 1 tab open (current page)"], false⟩, []) :=
  rfl

/-- Folding the `imageContent` update over image-free parts leaves the
accumulator unchanged. -/
theorem foldl_lastImage_noimage (acc : Option (String × String)) :
    ∀ ps : List Part, (∀ p ∈ ps, p.isImage = false) →
      ps.foldl
        (fun acc p => match p with
          | .image m d => some (m, d)
          | _ => acc) acc = acc := by
  intro ps
  induction ps generalizing acc with
  | nil => intro _; rfl
  | cons p rest ih =>
      intro h
      have hp : p.isImage = false := h p (List.mem_cons_self p rest)
      have hrest : ∀ q ∈ rest, q.isImage = false :=
        fun q hq => h q (List.mem_cons_of_mem p hq)
      cases p with
      | text t => exact ih acc hrest
      | image m d => simp [Part.isImage] at hp
      | other j => exact ih acc hrest

/-- With exactly one image part in the list, `imageContent` ends up holding
exactly the payload of that part. -/
theorem lastImage_single (pre post : List Part) (m d : String)
    (hpre : ∀ p ∈ pre, p.isImage = false)
    (hpost : ∀ p ∈ post, p.isImage = false) :
    lastImage (pre ++ Part.image m d :: post) = some (m, d) := by
  unfold lastImage
  rw [List.foldl_append, foldl_lastImage_noimage _ pre hpre]
  show (Part.image m d :: post).foldl _ none = some (m, d)
  rw [List.foldl_cons]
  exact foldl_lastImage_noimage _ post hpost

/-- C2: when a successfully executed tool call returns a content list with
exactly one image part, the loop appends the tool-result message (its
content the newline-join of the rendered parts, the image rendered as the
text placeholder, never the raw payload) immediately followed by exactly one
user-role message carrying that image as a data URL — and nothing else. -/
theorem single_image_injection (env : LoopEnv) (turn : Nat) (tc : ToolCall)
    (res : CallToolResult) (pre post : List Part) (m d : String)
    (hexec : env.exec turn tc = .ok res)
    (hcontent : res.content = pre ++ Part.image m d :: post)
    (hpre : ∀ p ∈ pre, p.isImage = false)
    (hpost : ∀ p ∈ post, p.isImage = false)
    (hparse : tc.arguments = "" ∨ (env.parse tc.arguments).isSome) :
    processToolCall env turn tc =
      [Msg.tool tc.id (String.intercalate "\n" (res.content.map renderPart)),
       Msg.userParts [UserPart.text imageIntroText,
                      UserPart.imageUrl (imageDataUrl m d)]] ∧
    renderPart (Part.image m d) = "[Image captured: " ++ m ++ "]" := by
  refine ⟨?_, rfl⟩
  unfold processToolCall
  have hok :
      (if tc.arguments = "" then true
       else (env.parse tc.arguments).isSome) = true := by
    rcases hparse with h | h
    · simp [h]
    · by_cases he : tc.arguments = "" <;> simp [he, h]
  rw [hok]
  simp only [if_true, hexec]
  unfold toolResultMessages
  rw [hcontent, lastImage_single pre post m d hpre hpost]

/-- Witness for C2 at a concrete screenshot-like tool call. -/
theorem single_image_injection_witness :
    processToolCall envImgW 1 ⟨"call1", "browser_take_screenshot", ""⟩ =
      [Msg.tool "call1" "snap\n[Image captured: image/png]",
       Msg.userParts [UserPart.text imageIntroText,
                      UserPart.imageUrl "data:image/png;base64,AAAA"]] ∧
    renderPart (Part.image "image/png" "AAAA") =
      "[Image captured: image/png]" := by
  have h := single_image_injection envImgW 1
    ⟨"call1", "browser_take_screenshot", ""⟩
    ⟨[Part.text "snap", Part.image "image/png" "AAAA"], false⟩
    [Part.text "snap"] [] "image/png" "AAAA"
    rfl rfl (by intro p hp; simp at hp; subst hp; rfl) (by intro p hp; simp at hp)
    (Or.inl rfl)
  exact h

/-- Budget lemma: with a model that always answers with at least one tool
call, the loop entered at counter value `turns ≤ maxTurns` always dies with
the max-turns error, thrown the first time the counter reaches
`maxTurns + 1`. -/
theorem runLoop_always_tools (env : LoopEnv) (maxTurns : Nat)
    (hll : ∀ t msgs, ∃ m, env.llm t msgs = .ok m ∧ m.toolCalls ≠ []) :
    ∀ (n turns : Nat) (msgs : List Msg), maxTurns - turns = n →
      turns ≤ maxTurns →
      runLoop env maxTurns turns msgs = .maxTurnsError (maxTurns + 1) := by
  intro n
  induction n with
  | zero =>
      intro turns msgs h0 hle
      have heq : turns = maxTurns := by omega
      subst heq
      rw [runLoop, dif_pos (by omega)]
  | succ k ih =>
      intro turns msgs hk hle
      rw [runLoop, dif_neg (by omega)]
      obtain ⟨m, hm, hne⟩ :=
        hll (turns + 1)
          (msgs ++ [Msg.system ("Current Context:" ++
            match env.tabsCtx (turns + 1) with
            | .ok r =>
                "\n\n[Current Browser Tabs]\n" ++
                  String.intercalate "\n" (r.content.map partTextJs)
            | .error _ => "")])
      simp only [hm]
      cases hmt : m.toolCalls with
      | nil => exact absurd hmt hne
      | cons a l =>
          simp only [hmt, List.isEmpty_cons, if_false, Bool.false_eq_true]
          exact ih (turns + 1) _ (by omega) (by omega)

/-- C3: `runTask` increments the turn counter once per iteration and throws
the turn-budget error as soon as the counter exceeds `maxTurns`: with a
model that answers every turn with a tool call and never plain text, the
call fails with the max-turns error at counter value `maxTurns + 1` — in
particular with `maxTurns = 3` the failure fires on turn 4. -/
theorem runTask_turn_budget (env : LoopEnv)
    (targetHost task sys : String) (maxTurns : Nat)
    (hll : ∀ t msgs, ∃ m, env.llm t msgs = .ok m ∧ m.toolCalls ≠ []) :
    runTask env targetHost task sys maxTurns =
      .maxTurnsError (maxTurns + 1) := by
  unfold runTask
  exact runLoop_always_tools env maxTurns hll maxTurns 0 _ (by omega)
    (by omega)

/-- Witness for C3: with `maxTurns = 3` and a model that always requests a
tool call, the call raises the turn-budget failure at turn 4. -/
theorem runTask_turn_budget_witness :
    runTask envBudgetW "https://host" "click Surveys" "agent" 3 =
      .maxTurnsError 4 :=
  runTask_turn_budget envBudgetW "https://host" "click Surveys" "agent" 3
    (fun _t _msgs =>
      ⟨⟨none, [⟨"c", "browser_click", ""⟩]⟩, rfl, by simp⟩)

/-- C4: failures internal to one tool call never abort the per-turn loop.
A call whose JSON argument string fails to parse contributes exactly the
JSON-error tool-result message, with every call before and after it
processed as usual; a call whose execution throws is caught and contributes
exactly the execution-error tool-result message, likewise without stopping
the loop. -/
theorem tool_failures_contained (env : LoopEnv) (turn : Nat) (tc : ToolCall)
    (xs ys : List ToolCall) :
    (tc.arguments ≠ "" → env.parse tc.arguments = none →
      processToolCalls env turn (xs ++ tc :: ys) =
        processToolCalls env turn xs ++ [Msg.tool tc.id invalidJsonMsg] ++
          processToolCalls env turn ys) ∧
    (∀ e, (tc.arguments = "" ∨ (env.parse tc.arguments).isSome) →
      env.exec turn tc = .error e →
      processToolCalls env turn (xs ++ tc :: ys) =
        processToolCalls env turn xs ++ [Msg.tool tc.id (execErrorMsg e)] ++
          processToolCalls env turn ys) := by
  constructor
  · intro hne hparse
    show (xs ++ tc :: ys).flatMap (processToolCall env turn) = _
    rw [List.flatMap_append, List.flatMap_cons]
    have hmid : processToolCall env turn tc = [Msg.tool tc.id invalidJsonMsg] := by
      unfold processToolCall
      simp [hne, hparse]
    rw [hmid, List.append_assoc]
    rfl
  · intro e hok hexec
    show (xs ++ tc :: ys).flatMap (processToolCall env turn) = _
    rw [List.flatMap_append, List.flatMap_cons]
    have hmid :
        processToolCall env turn tc = [Msg.tool tc.id (execErrorMsg e)] := by
      unfold processToolCall
      have hcond :
          (if tc.arguments = "" then true
           else (env.parse tc.arguments).isSome) = true := by
        rcases hok with h | h
        · simp [h]
        · by_cases he : tc.arguments = "" <;> simp [he, h]
      rw [hcond]
      simp [hexec]
    rw [hmid, List.append_assoc]
    rfl

/-- Witness for C4: a malformed-JSON call in the middle of a turn and a
throwing call each yield an error tool-result while the neighbours are still
processed. -/
theorem tool_failures_contained_witness :
    (processToolCalls envFailW 1
        ([⟨"a", "browser_click", "good"⟩] ++
          ⟨"b", "browser_click", "bad"⟩ :: [⟨"c", "browser_click", "good"⟩]) =
      processToolCalls envFailW 1 [⟨"a", "browser_click", "good"⟩] ++
        [Msg.tool "b" invalidJsonMsg] ++
        processToolCalls envFailW 1 [⟨"c", "browser_click", "good"⟩]) ∧
    (processToolCalls envFailW 1
        ([⟨"a", "browser_click", "good"⟩] ++
          ⟨"e1", "browser_click", "good"⟩ :: [⟨"c", "browser_click", "good"⟩]) =
      processToolCalls envFailW 1 [⟨"a", "browser_click", "good"⟩] ++
        [Msg.tool "e1" (execErrorMsg "boom")] ++
        processToolCalls envFailW 1 [⟨"c", "browser_click", "good"⟩]) := by
  constructor
  · exact (tool_failures_contained envFailW 1 ⟨"b", "browser_click", "bad"⟩
      [⟨"a", "browser_click", "good"⟩] [⟨"c", "browser_click", "good"⟩]).1
      (by simp) rfl
  · exact (tool_failures_contained envFailW 1 ⟨"e1", "browser_click", "good"⟩
      [⟨"a", "browser_click", "good"⟩] [⟨"c", "browser_click", "good"⟩]).2
      "boom" (Or.inr rfl) rfl

/-- Filtering out one key leaves lookups of other keys unchanged. -/
theorem find?_filter_ne (a : Activity) (k k' : Nat) (h : k' ≠ k) :
    (a.filter (fun p => p.1 != k)).find? (fun p => p.1 == k') =
      a.find? (fun p => p.1 == k') := by
  induction a with
  | nil => rfl
  | cons p rest ih =>
      by_cases hp : p.1 = k
      · have h1 : (p.1 != k) = false := by simp [hp]
        have h2 : (p.1 == k') = false := by simp [hp]; omega
        simp [List.filter_cons, h1, List.find?_cons, h2, ih]
      · have h1 : (p.1 != k) = true := by simp [hp]
        by_cases hp' : p.1 = k'
        · have h2 : (p.1 == k') = true := by simp [hp']
          simp [List.filter_cons, h1, List.find?_cons, h2]
        · have h2 : (p.1 == k') = false := by simp [hp']
          simp [List.filter_cons, h1, List.find?_cons, h2, ih]

/-- `Map.set` behaves pointwise on `Map.get`. -/
theorem activity_get_set (a : Activity) (k v k' : Nat) :
    Activity.get (Activity.set a k v) k' =
      if k' = k then some v else Activity.get a k' := by
  unfold Activity.get Activity.set
  by_cases h : k' = k
  · subst h
    simp [List.find?_cons]
  · have hk : ((k : Nat) == k') = false := by simp; omega
    simp only [List.find?_cons, hk, if_neg h]
    rw [find?_filter_ne a k k' h]

/-- The sweep loop closes at most one tab: a successful close returns at
once, and a failed close attempt closes nothing. -/
theorem cleanupLoop_closed_le_one {σ : Type} (env : GwEnv σ) (now : Nat)
    (timeoutMs : Int) :
    ∀ (tabs : List Tab) (s : σ) (a : Activity),
      (cleanupLoop env now timeoutMs tabs s a).closed.length ≤ 1 := by
  intro tabs
  induction tabs with
  | nil => intro s a; simp [cleanupLoop]
  | cons t rest ih =>
      intro s a
      by_cases ht : t.active = true
      · simpa [cleanupLoop, ht] using ih s a
      · rcases hga : Activity.get a t.index with _ | v
        · simpa [cleanupLoop, ht, hga] using ih s _
        · by_cases hv : v ≠ 0
          · by_cases helig : (now : Int) - (v : Int) > timeoutMs
            · rcases hgw : env.gw s (.tool "browser_tabs" (closeArgs t.index))
                with ⟨s1, r⟩
              cases r with
              | ok u => simp [cleanupLoop, ht, hga, hv, helig, hgw]
              | error e =>
                  simpa [cleanupLoop, ht, hga, hv, helig, hgw] using ih s1 a
            · simpa [cleanupLoop, ht, hga, hv, helig] using ih s a
          · simpa [cleanupLoop, ht, hga, hv] using ih s _

/-- Every tab index the sweep loop closes belongs to an inactive tab of the
swept listing. -/
theorem cleanupLoop_closed_inactive {σ : Type} (env : GwEnv σ) (now : Nat)
    (timeoutMs : Int) :
    ∀ (tabs : List Tab) (s : σ) (a : Activity) (i : Nat),
      i ∈ (cleanupLoop env now timeoutMs tabs s a).closed →
      ∃ t, t ∈ tabs ∧ t.active = false ∧ t.index = i := by
  intro tabs
  induction tabs with
  | nil => intro s a i h; simp [cleanupLoop] at h
  | cons t rest ih =>
      intro s a i h
      by_cases ht : t.active = true
      · simp only [cleanupLoop, ht, if_true] at h
        obtain ⟨u, hu, hua, hui⟩ := ih s a i h
        exact ⟨u, List.mem_cons_of_mem t hu, hua, hui⟩
      · have ht' : t.active = false := by simpa using ht
        rcases hga : Activity.get a t.index with _ | v
        · simp only [cleanupLoop, ht', hga, Bool.false_eq_true, if_false] at h
          obtain ⟨u, hu, hua, hui⟩ := ih s _ i h
          exact ⟨u, List.mem_cons_of_mem t hu, hua, hui⟩
        · by_cases hv : v ≠ 0
          · by_cases helig : (now : Int) - (v : Int) > timeoutMs
            · rcases hgw : env.gw s (.tool "browser_tabs" (closeArgs t.index))
                with ⟨s1, r⟩
              cases r with
              | ok u =>
                  simp [cleanupLoop, ht', hga, hv, helig, hgw] at h
                  exact ⟨t, List.mem_cons_self t rest, ht', h.symm⟩
              | error e =>
                  simp [cleanupLoop, ht', hga, hv, helig, hgw] at h
                  obtain ⟨u, hu, hua, hui⟩ := ih s1 a i h
                  exact ⟨u, List.mem_cons_of_mem t hu, hua, hui⟩
            · simp [cleanupLoop, ht', hga, hv, helig] at h
              obtain ⟨u, hu, hua, hui⟩ := ih s a i h
              exact ⟨u, List.mem_cons_of_mem t hu, hua, hui⟩
          · simp [cleanupLoop, ht', hga, hv] at h
            obtain ⟨u, hu, hua, hui⟩ := ih s _ i h
            exact ⟨u, List.mem_cons_of_mem t hu, hua, hui⟩

/-- When every close call succeeds and the swept listing holds an inactive
tab whose recorded activity is truthy and strictly older than the timeout,
the sweep loop closes exactly one tab. -/
theorem cleanupLoop_closes_one {σ : Type} (env : GwEnv σ) (now : Nat)
    (timeoutMs : Int)
    (hclose : ∀ (s : σ) (i : Nat), ∃ s' r,
      env.gw s (.tool "browser_tabs" (closeArgs i)) = (s', Except.ok r)) :
    ∀ (tabs : List Tab) (s : σ) (a : Activity) (tb : Tab) (v : Nat),
      tb ∈ tabs → tb.active = false → Activity.get a tb.index = some v →
      v ≠ 0 → (now : Int) - (v : Int) > timeoutMs →
      (cleanupLoop env now timeoutMs tabs s a).closed.length = 1 := by
  intro tabs
  induction tabs with
  | nil =>
      intro s a tb v hmem _ _ _ _
      exact absurd hmem (List.not_mem_nil tb)
  | cons t rest ih =>
      intro s a tb v hmem hina hget hv0 helig
      by_cases ht : t.active = true
      · have htb : tb ∈ rest := by
          rcases List.mem_cons.mp hmem with h | h
          · subst h; exact absurd hina (by simp [ht])
          · exact h
        simpa [cleanupLoop, ht] using ih s a tb v htb hina hget hv0 helig
      · have ht' : t.active = false := by simpa using ht
        rcases hga : Activity.get a t.index with _ | w
        · have hne : t.index ≠ tb.index := by
            intro he
            rw [he, hget] at hga
            cases hga
          have htb : tb ∈ rest := by
            rcases List.mem_cons.mp hmem with h | h
            · subst h; exact absurd rfl hne
            · exact h
          have hget' :
              Activity.get (Activity.set a t.index now) tb.index = some v := by
            rw [activity_get_set, if_neg (fun he => hne he.symm)]
            exact hget
          simpa [cleanupLoop, ht', hga] using
            ih s _ tb v htb hina hget' hv0 helig
        · by_cases hw : w ≠ 0
          · by_cases heligw : (now : Int) - (w : Int) > timeoutMs
            · obtain ⟨s1, r, hgw⟩ := hclose s t.index
              simp [cleanupLoop, ht', hga, hw, heligw, hgw]
            · have htb : tb ∈ rest := by
                rcases List.mem_cons.mp hmem with h | h
                · subst h
                  rw [hget] at hga
                  injection hga with hvw
                  subst hvw
                  exact absurd helig heligw
                · exact h
              simpa [cleanupLoop, ht', hga, hw, heligw] using
                ih s a tb v htb hina hget hv0 helig
          · have hw0 : w = 0 := by omega
            have hne : t.index ≠ tb.index := by
              intro he
              rw [he, hget] at hga
              injection hga with hvw
              exact hv0 (by omega)
            have htb : tb ∈ rest := by
              rcases List.mem_cons.mp hmem with h | h
              · subst h; exact absurd rfl hne
              · exact h
            have hget' :
                Activity.get (Activity.set a t.index now) tb.index = some v := by
              rw [activity_get_set, if_neg (fun he => hne he.symm)]
              exact hget
            simpa [cleanupLoop, ht', hga, hw0] using
              ih s _ tb v htb hina hget' hv0 helig

/-- Counterexample to C5 as stated: with idle timeout T = 5 and the inactive
tab 1 last active at t = 1, a sweep performed at time 6 = t + T (hence
≥ t + T, as the claim requires) closes NO tab, because the code demands
`now - lastActive > timeout` strictly — even though the gateway would accept
any close call. -/
theorem idle_sweep_boundary_counterexample :
    (0 : Int) < 5 ∧ (6 : Nat) ≥ 1 + 5 ∧
    (⟨1, false, "https://b"⟩ : Tab) ∈ (getTabsState gwIdleCx ()).tabs ∧
    Activity.get [(1, 1)] 1 = some 1 ∧
    (cleanupIdleTabs gwIdleCx 6 5 () [(1, 1)]).closed = [] := by
  refine ⟨by decide, by decide, by decide, by decide, by decide⟩

/-- C5 (amended): for every configured idle timeout T > 0, a single sweep
closes at most one tab — never one listed as active, even when several are
eligible — and closes exactly one when the listing holds an inactive tab
(its index not shared with an active tab) whose recorded last activity v is
truthy and STRICTLY older than the timeout (`now - v > T`, i.e. the sweep
runs strictly after t + T; at exactly t + T nothing is closed) and close
calls succeed. -/
theorem idle_sweep_guarantees {σ : Type} (env : GwEnv σ) (now : Nat)
    (timeoutMs : Int) (s : σ) (a : Activity) :
    (cleanupIdleTabs env now timeoutMs s a).closed.length ≤ 1 ∧
    (∀ i ∈ (cleanupIdleTabs env now timeoutMs s a).closed,
      ∃ t, t ∈ (getTabsState env s).tabs ∧ t.active = false ∧ t.index = i) ∧
    (0 < timeoutMs →
      (∀ (s' : σ) (i : Nat), ∃ s'' r,
        env.gw s' (.tool "browser_tabs" (closeArgs i)) = (s'', Except.ok r)) →
      ∀ tb v, tb ∈ (getTabsState env s).tabs → tb.active = false →
        (∀ t ∈ (getTabsState env s).tabs, t.active = true →
          t.index ≠ tb.index) →
        Activity.get a tb.index = some v → v ≠ 0 →
        (now : Int) - (v : Int) > timeoutMs →
        (cleanupIdleTabs env now timeoutMs s a).closed.length = 1) := by
  by_cases hto : timeoutMs ≤ 0
  · have hclosed : (cleanupIdleTabs env now timeoutMs s a).closed = [] := by
      rw [cleanupIdleTabs, if_pos hto]
    refine ⟨by rw [hclosed]; simp, ?_, ?_⟩
    · intro i hi
      rw [hclosed] at hi
      simp at hi
    · intro hpos
      omega
  · have hclosed : (cleanupIdleTabs env now timeoutMs s a).closed =
        (cleanupLoop env now timeoutMs (getTabsState env s).tabs
          (getTabsState env s).st
          (match (getTabsState env s).tabs.find? (·.active) with
           | some t => Activity.set a t.index now
           | none => a)).closed := by
      rw [cleanupIdleTabs, if_neg hto]
    refine ⟨?_, ?_, ?_⟩
    · rw [hclosed]
      exact cleanupLoop_closed_le_one env now timeoutMs _ _ _
    · intro i hi
      rw [hclosed] at hi
      exact cleanupLoop_closed_inactive env now timeoutMs _ _ _ i hi
    · intro _ hclose tb v hmem hina hnoact hget hv0 helig
      rw [hclosed]
      rcases hf : (getTabsState env s).tabs.find? (·.active) with _ | t0
      · simp only [hf]
        exact cleanupLoop_closes_one env now timeoutMs hclose _ _ _ tb v
          hmem hina hget hv0 helig
      · have ht0mem : t0 ∈ (getTabsState env s).tabs :=
          List.mem_of_find?_eq_some hf
        have ht0act : t0.active = true := by
          have := List.find?_some hf
          simpa using this
        have hne : t0.index ≠ tb.index := hnoact t0 ht0mem ht0act
        have hget' :
            Activity.get (Activity.set a t0.index now) tb.index = some v := by
          rw [activity_get_set, if_neg (fun he => hne he.symm)]
          exact hget
        simp only [hf]
        exact cleanupLoop_closes_one env now timeoutMs hclose _ _ _ tb v
          hmem hina hget' hv0 helig

/-- Witness for C5 (amended): timeout 5, inactive tab 1 last active at 1,
swept at time 7 (strictly past 1 + 5): exactly one tab closed. -/
theorem idle_sweep_guarantees_witness :
    (cleanupIdleTabs gwIdleCx 7 5 () [(1, 1)]).closed.length = 1 := by
  exact (idle_sweep_guarantees gwIdleCx 7 5 () [(1, 1)]).2.2
    (by decide)
    (fun s i => ⟨(), ⟨[Part.text "listing"], false⟩, rfl⟩)
    ⟨1, false, "https://b"⟩ 1
    (by decide) rfl (by decide) rfl (by decide) (by decide)

/-- Every event the sweep loop emits is a `browser_tabs`/`close` gateway
call. -/
theorem cleanupLoop_log_closes {σ : Type} (env : GwEnv σ) (now : Nat)
    (timeoutMs : Int) :
    ∀ (tabs : List Tab) (s : σ) (a : Activity) (ev : Ev),
      ev ∈ (cleanupLoop env now timeoutMs tabs s a).log →
      ∃ i, ev = .call (.tool "browser_tabs" (closeArgs i)) := by
  intro tabs
  induction tabs with
  | nil => intro s a ev h; simp [cleanupLoop] at h
  | cons t rest ih =>
      intro s a ev h
      by_cases ht : t.active = true
      · simp only [cleanupLoop, ht, if_true] at h
        exact ih s a ev h
      · have ht' : t.active = false := by simpa using ht
        rcases hga : Activity.get a t.index with _ | v
        · simp [cleanupLoop, ht', hga] at h
          exact ih s _ ev h
        · by_cases hv : v ≠ 0
          · by_cases helig : (now : Int) - (v : Int) > timeoutMs
            · rcases hgw : env.gw s (.tool "browser_tabs" (closeArgs t.index))
                with ⟨s1, r⟩
              cases r with
              | ok u =>
                  simp [cleanupLoop, ht', hga, hv, helig, hgw] at h
                  exact ⟨t.index, h⟩
              | error e =>
                  simp [cleanupLoop, ht', hga, hv, helig, hgw] at h
                  rcases h with h | h
                  · exact ⟨t.index, h⟩
                  · exact ih s1 a ev h
            · simp [cleanupLoop, ht', hga, hv, helig] at h
              exact ih s a ev h
          · have hv0 : v = 0 := by omega
            simp [cleanupLoop, ht', hga, hv0] at h
            exact ih s _ ev h

/-- No event of an idle sweep is a forwarded new-tab call. -/
theorem cleanupIdleTabs_log_not_new {σ : Type} (env : GwEnv σ) (now : Nat)
    (timeoutMs : Int) (s : σ) (a : Activity) :
    ∀ ev ∈ (cleanupIdleTabs env now timeoutMs s a).log,
      ev.isNewTabCall = false := by
  intro ev hev
  by_cases hto : timeoutMs ≤ 0
  · rw [cleanupIdleTabs, if_pos hto] at hev
    simp at hev
  · have hlog : (cleanupIdleTabs env now timeoutMs s a).log =
        (getTabsState env s).log ++
          (cleanupLoop env now timeoutMs (getTabsState env s).tabs
            (getTabsState env s).st
            (match (getTabsState env s).tabs.find? (·.active) with
             | some t => Activity.set a t.index now
             | none => a)).log := by
      rw [cleanupIdleTabs, if_neg hto]
    rw [hlog] at hev
    rcases List.mem_append.mp hev with h | h
    · have : ev = .call (.tool "browser_tabs" listArgs) := by
        unfold getTabsState at h
        rcases hgw : env.gw s (.tool "browser_tabs" listArgs) with ⟨s1, r⟩
        rw [hgw] at h
        cases r <;> simpa using h
      rw [this]
      rfl
    · obtain ⟨i, hi⟩ := cleanupLoop_log_closes env now timeoutMs _ _ _ ev h
      rw [hi]
      rfl

/-- A tab-state fetch emits exactly one listing call. -/
theorem getTabsState_log {σ : Type} (env : GwEnv σ) (s : σ) :
    (getTabsState env s).log = [.call (.tool "browser_tabs" listArgs)] := by
  unfold getTabsState
  rcases env.gw s (.tool "browser_tabs" listArgs) with ⟨s1, r⟩
  cases r <;> rfl

/-- C6 (amended): with a page ceiling N > 0 and the observed tab count at or
above N, a `browser_tabs`/`new` invocation is refused with the failure
result explaining the limit, and the requested new-tab operation is never
forwarded to the gateway (no event of the call is a new-tab forward; the
governor still issues auxiliary listing/close calls). -/
theorem tab_limit_refusal {σ : Type} (env : GwEnv σ) (cfg : WrapperCfg)
    (now1 now2 : Nat) (s : σ) (a : Activity) (tpc : Nat) (args : ToolArgs)
    (hnew : args.action = some "new") (hmax : 0 < cfg.maxPages)
    (hcount : cfg.maxPages ≤
      (getTabsState env
        (cleanupIdleTabs env now1 cfg.pageIdleTimeoutMs s a).st).tabs.length) :
    (pwCallTool env cfg now1 now2 s a tpc "browser_tabs" args).result =
      .ok (limitErrResult (limitErrNewTab cfg.maxPages)) ∧
    ∀ ev ∈ (pwCallTool env cfg now1 now2 s a tpc "browser_tabs" args).log,
      ev.isNewTabCall = false := by
  have hcp : createsPageCheck "browser_tabs" args = true := by
    simp [createsPageCheck, hnew]
  have h1 : (("browser_tabs" : String) == "browser_navigate") = false := by
    decide
  have hmz : (cfg.maxPages != 0) = true := by simp; omega
  have hargs : (args.action == some "new") = true := by simp [hnew]
  have hmain : pwCallTool env cfg now1 now2 s a tpc "browser_tabs" args =
      ⟨(getTabsState env
          (cleanupIdleTabs env now1 cfg.pageIdleTimeoutMs s a).st).st,
        (cleanupIdleTabs env now1 cfg.pageIdleTimeoutMs s a).activity, tpc,
        (cleanupIdleTabs env now1 cfg.pageIdleTimeoutMs s a).log ++
          (getTabsState env
            (cleanupIdleTabs env now1 cfg.pageIdleTimeoutMs s a).st).log,
        .ok (limitErrResult (limitErrNewTab cfg.maxPages))⟩ := by
    unfold pwCallTool
    simp [hcp, hmz, h1, hargs, hcount]
  constructor
  · rw [hmain]
  · intro ev hev
    rw [hmain] at hev
    rcases List.mem_append.mp hev with h | h
    · exact cleanupIdleTabs_log_not_new env now1 cfg.pageIdleTimeoutMs s a ev h
    · rw [getTabsState_log] at h
      simp at h
      rw [h]
      rfl

/-- Counterexample to C6 as stated: with ceiling 1 and one tab open, the
`browser_tabs`/`new` call is refused — yet the governor has issued one
gateway invocation (the page-count listing), so the gateway invocation count
DOES increase during the refused call (from 0 to 1 here). -/
theorem tab_limit_gateway_count_counterexample :
    (pwCallTool gwLimitCx ⟨1, 0, 0⟩ 0 0 () [] 0 "browser_tabs"
        ⟨some "new", none, none⟩).result =
      .ok (limitErrResult (limitErrNewTab 1)) ∧
    (pwCallTool gwLimitCx ⟨1, 0, 0⟩ 0 0 () [] 0 "browser_tabs"
        ⟨some "new", none, none⟩).log =
      [.call (.tool "browser_tabs" listArgs)] :=
  ⟨rfl, rfl⟩

/-- Witness for C6 (amended): the refusal result comes back and no event of
the refused call forwards the new-tab operation. -/
theorem tab_limit_refusal_witness :
    (pwCallTool gwLimitCx ⟨1, 0, 0⟩ 0 0 () [] 0 "browser_tabs"
        ⟨some "new", none, none⟩).result =
      .ok (limitErrResult (limitErrNewTab 1)) ∧
    ∀ ev ∈ (pwCallTool gwLimitCx ⟨1, 0, 0⟩ 0 0 () [] 0 "browser_tabs"
        ⟨some "new", none, none⟩).log, ev.isNewTabCall = false :=
  tab_limit_refusal gwLimitCx ⟨1, 0, 0⟩ 0 0 () [] 0 ⟨some "new", none, none⟩
    rfl (by decide) (by decide)

/-- With every close call succeeding, the excess-closure loop closes exactly
the listed tabs in order, pausing 500 ms after each closure. -/
theorem closeExcessLoop_ok {σ : Type} (env : GwEnv σ)
    (hclose : ∀ (s : σ) (i : Nat), ∃ s' r,
      env.gw s (.tool "browser_tabs" (closeArgs i)) = (s', Except.ok r)) :
    ∀ (l : List (Tab × Nat)) (s : σ) (a : Activity),
      (closeExcessLoop env l s a).2.2.2 = l.map (fun p => p.1.index) ∧
      (closeExcessLoop env l s a).2.2.1 =
        l.flatMap (fun p =>
          [.call (.tool "browser_tabs" (closeArgs p.1.index)), .sleep 500]) := by
  intro l
  induction l with
  | nil => intro s a; exact ⟨rfl, rfl⟩
  | cons p rest ih =>
      intro s a
      obtain ⟨s1, r, hgw⟩ := hclose s p.1.index
      rcases p with ⟨t, w⟩
      obtain ⟨ih1, ih2⟩ := ih s1 (Activity.del a t.index)
      constructor
      · simp [closeExcessLoop, hgw, ih1]
      · simp [closeExcessLoop, hgw, ih2]

/-- Inactive and active tabs partition the listing. -/
theorem length_filter_not_active (tabs : List Tab) :
    (tabs.filter (fun t => !t.active)).length =
      tabs.length - (tabs.filter (fun t => t.active)).length := by
  induction tabs with
  | nil => rfl
  | cons t rest ih =>
      have hle : (rest.filter (fun t => t.active)).length ≤ rest.length :=
        List.length_filter_le _ _
      by_cases ht : t.active = true
      · simp [List.filter_cons, ht, ih]
        try omega
      · have ht' : t.active = false := by simpa using ht
        simp [List.filter_cons, ht', ih]
        try omega

/-- Every decorated tab selected by the enforcement sort is inactive and
drawn from the listing. -/
theorem inactiveByActivity_mem (tabs : List Tab) (a : Activity)
    (p : Tab × Nat) (h : p ∈ inactiveByActivity tabs a) :
    p.1 ∈ tabs ∧ p.1.active = false := by
  unfold inactiveByActivity at h
  rw [List.mem_insertionSort] at h
  obtain ⟨t, ht, hpt⟩ := List.mem_map.mp h
  obtain ⟨htm, hta⟩ := List.mem_filter.mp ht
  subst hpt
  exact ⟨htm, by simpa using hta⟩

/-- The enforcement observables of the part_003 execution tail do not depend
on the restart-counter tail: they are exactly the output of the (guarded)
excess-closure loop run on the post-execution listing. -/
theorem pwExecV2_enforce_fields {σ : Type} (env : GwEnv σ) (cfg : WrapperCfg)
    (now2 : Nat) (s : σ) (a : Activity) (tpc : Nat) (name : String)
    (args : ToolArgs) (log0 : List Ev) (createsPage : Bool) (s1 : σ)
    (result : CallToolResult)
    (hgw : env.gw s (.tool name args) = (s1, Except.ok result)) :
    (pwExecV2 env cfg now2 s a tpc name args log0 createsPage).enforceLog =
      (if cfg.maxPages > 0 ∧ result.isError = false ∧
          (getTabsState env s1).tabs.length > cfg.maxPages then
        closeExcessLoop env
          ((inactiveByActivity (getTabsState env s1).tabs
            (stampActive env s1 a now2)).take
              ((getTabsState env s1).tabs.length - cfg.maxPages))
          (getTabsState env s1).st (stampActive env s1 a now2)
       else ((getTabsState env s1).st,
             stampActive env s1 a now2, [], [])).2.2.1 ∧
    (pwExecV2 env cfg now2 s a tpc name args log0 createsPage).excessClosed =
      (if cfg.maxPages > 0 ∧ result.isError = false ∧
          (getTabsState env s1).tabs.length > cfg.maxPages then
        closeExcessLoop env
          ((inactiveByActivity (getTabsState env s1).tabs
            (stampActive env s1 a now2)).take
              ((getTabsState env s1).tabs.length - cfg.maxPages))
          (getTabsState env s1).st (stampActive env s1 a now2)
       else ((getTabsState env s1).st,
             stampActive env s1 a now2, [], [])).2.2.2 := by
  unfold pwExecV2 stampActive
  simp only [hgw]
  constructor
  · split
    · split
      · split <;> rfl
      · rfl
    · rfl
  · split
    · split
      · split <;> rfl
      · rfl
    · rfl

/-- C7: in the part_003 variant, after an invoke whose execution succeeds
(non-error result), with a ceiling configured and the observed tab count
above it, the governor closes exactly the excess tabs: only tabs listed as
inactive, ordered oldest-activity-first (the selection list is sorted by
ascending recorded activity and is a permutation of the decorated inactive
tabs), one at a time with a 500 ms pause after each closure. -/
theorem posthoc_tab_enforcement {σ : Type} (env : GwEnv σ) (cfg : WrapperCfg)
    (now2 : Nat) (s : σ) (a : Activity) (tpc : Nat) (name : String)
    (args : ToolArgs) (log0 : List Ev) (createsPage : Bool) (s1 : σ)
    (result : CallToolResult)
    (hgw : env.gw s (.tool name args) = (s1, Except.ok result))
    (hok : result.isError = false) (hmp : 0 < cfg.maxPages)
    (hcnt : (getTabsState env s1).tabs.length > cfg.maxPages)
    (hclose : ∀ (s' : σ) (i : Nat), ∃ s'' r,
      env.gw s' (.tool "browser_tabs" (closeArgs i)) = (s'', Except.ok r))
    (hact : ((getTabsState env s1).tabs.filter (fun t => t.active)).length ≤
      cfg.maxPages) :
    (pwExecV2 env cfg now2 s a tpc name args log0 createsPage).excessClosed =
      ((inactiveByActivity (getTabsState env s1).tabs
          (stampActive env s1 a now2)).take
        ((getTabsState env s1).tabs.length - cfg.maxPages)).map
        (fun p => p.1.index) ∧
    (pwExecV2 env cfg now2 s a tpc name args log0 createsPage).enforceLog =
      ((inactiveByActivity (getTabsState env s1).tabs
          (stampActive env s1 a now2)).take
        ((getTabsState env s1).tabs.length - cfg.maxPages)).flatMap
        (fun p =>
          [.call (.tool "browser_tabs" (closeArgs p.1.index)), .sleep 500]) ∧
    (pwExecV2 env cfg now2 s a tpc name args log0
        createsPage).excessClosed.length =
      (getTabsState env s1).tabs.length - cfg.maxPages ∧
    (∀ i ∈ (pwExecV2 env cfg now2 s a tpc name args log0
        createsPage).excessClosed,
      ∃ t, t ∈ (getTabsState env s1).tabs ∧ t.active = false ∧
        t.index = i) ∧
    List.Sorted byActivity
      (inactiveByActivity (getTabsState env s1).tabs
        (stampActive env s1 a now2)) ∧
    (inactiveByActivity (getTabsState env s1).tabs
        (stampActive env s1 a now2)).Perm
      (((getTabsState env s1).tabs.filter (fun t => !t.active)).map
        (fun t =>
          (t, (Activity.get (stampActive env s1 a now2) t.index).getD 0))) := by
  obtain ⟨he1, he2⟩ := pwExecV2_enforce_fields env cfg now2 s a tpc name args
    log0 createsPage s1 result hgw
  rw [if_pos ⟨hmp, hok, hcnt⟩] at he1 he2
  obtain ⟨hc1, hc2⟩ := closeExcessLoop_ok env hclose
    ((inactiveByActivity (getTabsState env s1).tabs
        (stampActive env s1 a now2)).take
      ((getTabsState env s1).tabs.length - cfg.maxPages))
    (getTabsState env s1).st (stampActive env s1 a now2)
  have hclosed := he2.trans hc1
  have hlog := he1.trans hc2
  have hsl : (inactiveByActivity (getTabsState env s1).tabs
      (stampActive env s1 a now2)).length =
      ((getTabsState env s1).tabs.filter (fun t => !t.active)).length := by
    unfold inactiveByActivity
    rw [List.length_insertionSort, List.length_map]
  have hexle : (getTabsState env s1).tabs.length - cfg.maxPages ≤
      (inactiveByActivity (getTabsState env s1).tabs
        (stampActive env s1 a now2)).length := by
    rw [hsl, length_filter_not_active]
    omega
  have hlen : (pwExecV2 env cfg now2 s a tpc name args log0
      createsPage).excessClosed.length =
      (getTabsState env s1).tabs.length - cfg.maxPages := by
    rw [hclosed, List.length_map, List.length_take]
    omega
  refine ⟨hclosed, hlog, hlen, ?_, List.sorted_insertionSort _ _,
    List.perm_insertionSort _ _⟩
  intro i hi
  rw [hclosed] at hi
  obtain ⟨p, hp, hpi⟩ := List.mem_map.mp hi
  have hps := List.mem_of_mem_take hp
  obtain ⟨hmem, hina⟩ := inactiveByActivity_mem _ _ p hps
  exact ⟨p.1, hmem, hina, hpi⟩

/-- Witness for C7: both excess inactive tabs are closed oldest-first, each
closure followed by the 500 ms pause; the active tab 0 is untouched. -/
theorem posthoc_tab_enforcement_witness :
    (pwExecV2 gwExcessCx ⟨1, 0, 0⟩ 9 () [] 0 "browser_click"
        ⟨none, none, none⟩ [] false).excessClosed = [1, 2] ∧
    (pwExecV2 gwExcessCx ⟨1, 0, 0⟩ 9 () [] 0 "browser_click"
        ⟨none, none, none⟩ [] false).enforceLog =
      [.call (.tool "browser_tabs" (closeArgs 1)), .sleep 500,
       .call (.tool "browser_tabs" (closeArgs 2)), .sleep 500] := by
  obtain ⟨h1, h2, _, _, _, _⟩ :=
    posthoc_tab_enforcement gwExcessCx ⟨1, 0, 0⟩ 9 () [] 0 "browser_click"
      ⟨none, none, none⟩ [] false () ⟨[Part.text "listing"], false⟩
      rfl rfl (by decide) (by decide)
      (fun _s i => ⟨(), ⟨[Part.text "listing"], false⟩, rfl⟩) (by decide)
  constructor
  · rw [h1]; rfl
  · rw [h2]; rfl

/-- A failing attempt classified non-retryable throws the error at once. -/
theorem chatGo_throw_now (create : Nat → Except LlmError ModelMsg)
    (mr att : Nat) (le : Option LlmError) (sl : List Nat) (c : Nat)
    (hlt : att < mr) (e : LlmError) (hcr : create c = .error e)
    (hgate : (!isRetryable e && statusNe429 e.status &&
      statusLt500 e.status) = true) :
    chatGo create mr att le sl c = ⟨.error (some e), sl, c + 1⟩ := by
  rw [chatGo, dif_pos hlt]
  simp only [hcr, hgate, if_true]

/-- A failing attempt that passes the retry gate, with budget remaining,
sleeps the doubled backoff and loops. -/
theorem chatGo_retry_step (create : Nat → Except LlmError ModelMsg)
    (mr att : Nat) (le : Option LlmError) (sl : List Nat) (c : Nat)
    (hlt : att < mr) (e : LlmError) (hcr : create c = .error e)
    (hgate : (!isRetryable e && statusNe429 e.status &&
      statusLt500 e.status) = false)
    (hcont : att + 1 < mr) :
    chatGo create mr att le sl c =
      chatGo create mr (att + 1) (some e) (sl ++ [2 ^ att * 1000]) (c + 1) := by
  rw [chatGo, dif_pos hlt]
  simp only [hcr, hgate, Bool.false_eq_true, if_false]
  rw [if_neg (by omega)]

/-- A failing attempt that passes the retry gate with the budget exhausted
breaks out and throws the last error. -/
theorem chatGo_retry_last (create : Nat → Except LlmError ModelMsg)
    (mr att : Nat) (le : Option LlmError) (sl : List Nat) (c : Nat)
    (hlt : att < mr) (e : LlmError) (hcr : create c = .error e)
    (hgate : (!isRetryable e && statusNe429 e.status &&
      statusLt500 e.status) = false)
    (hlast : mr ≤ att + 1) :
    chatGo create mr att le sl c = ⟨.error (some e), sl, c + 1⟩ := by
  rw [chatGo, dif_pos hlt]
  simp only [hcr, hgate, Bool.false_eq_true, if_false]
  rw [if_pos (by omega)]

/-- The retry loop makes at most `maxRetries - attempt` further calls. -/
theorem chatGo_calls_le (create : Nat → Except LlmError ModelMsg) :
    ∀ (n mr att : Nat) (le : Option LlmError) (sl : List Nat) (c : Nat),
      mr - att = n →
      (chatGo create mr att le sl c).calls ≤ c + n := by
  intro n
  induction n with
  | zero =>
      intro mr att le sl c h
      rw [chatGo, dif_neg (by omega)]
      simp
  | succ k ih =>
      intro mr att le sl c h
      rw [chatGo, dif_pos (by omega)]
      cases hcr : create c with
      | ok r => show c + 1 ≤ c + (k + 1); omega
      | error e =>
          dsimp only
          by_cases hgate : (!isRetryable e && statusNe429 e.status &&
              statusLt500 e.status) = true
          · rw [if_pos hgate]
            show c + 1 ≤ c + (k + 1)
            omega
          · rw [if_neg hgate]
            by_cases hl : att + 1 ≥ mr
            · rw [if_pos hl]
              show c + 1 ≤ c + (k + 1)
              omega
            · rw [if_neg hl]
              have hrec := ih mr (att + 1) (some e)
                (sl ++ [2 ^ att * 1000]) (c + 1) (by omega)
              omega

/-- C8: the chat client retries errors that pass its retry classification
with exponential backoff 1s, 2s, 4s, 8s for at most 5 attempts in total and
then throws the last error; an error failing the classification — a 4xx
status other than 429 with none of the transient markers — is thrown to the
caller immediately, with no retry and no backoff; and no call ever makes
more than 5 attempts. -/
theorem chat_retry_policy (create : Nat → Except LlmError ModelMsg)
    (es : Nat → LlmError) :
    (∀ e, create 0 = .error e → isRetryable e = false →
      statusNe429 e.status = true → statusLt500 e.status = true →
      llmChat create = ⟨.error (some e), [], 1⟩) ∧
    ((∀ k, k < 5 → create k = .error (es k)) →
      (∀ k, k < 5 → (!isRetryable (es k) && statusNe429 (es k).status &&
        statusLt500 (es k).status) = false) →
      llmChat create =
        ⟨.error (some (es 4)), [1000, 2000, 4000, 8000], 5⟩) ∧
    (llmChat create).calls ≤ 5 := by
  refine ⟨?_, ?_, ?_⟩
  · intro e hcr hr h429 h500
    have hgate : (!isRetryable e && statusNe429 e.status &&
        statusLt500 e.status) = true := by
      rw [hr, h429, h500]
      rfl
    exact chatGo_throw_now create 5 0 none [] 0 (by omega) e hcr hgate
  · intro h1 h2
    rw [llmChat,
      chatGo_retry_step create 5 0 none [] 0 (by omega) (es 0)
        (h1 0 (by omega)) (h2 0 (by omega)) (by omega),
      chatGo_retry_step create 5 1 (some (es 0)) _ 1 (by omega) (es 1)
        (h1 1 (by omega)) (h2 1 (by omega)) (by omega),
      chatGo_retry_step create 5 2 (some (es 1)) _ 2 (by omega) (es 2)
        (h1 2 (by omega)) (h2 2 (by omega)) (by omega),
      chatGo_retry_step create 5 3 (some (es 2)) _ 3 (by omega) (es 3)
        (h1 3 (by omega)) (h2 3 (by omega)) (by omega),
      chatGo_retry_last create 5 4 (some (es 3)) _ 4 (by omega) (es 4)
        (h1 4 (by omega)) (h2 4 (by omega)) (by omega)]
    rfl
  · exact chatGo_calls_le create 5 5 0 none [] 0 rfl

/-- Witness for C8: a plain 404 is thrown at once with no backoff and one
SDK call; a persistent 500 is retried with backoff 1s, 2s, 4s, 8s over 5
attempts and the last error is thrown. -/
theorem chat_retry_policy_witness :
    llmChat (fun _ => .error ⟨none, none, "Not Found", some 404⟩) =
      ⟨.error (some ⟨none, none, "Not Found", some 404⟩), [], 1⟩ ∧
    llmChat (fun _ => .error ⟨none, none, "Internal Server Error", some 500⟩) =
      ⟨.error (some ⟨none, none, "Internal Server Error", some 500⟩),
        [1000, 2000, 4000, 8000], 5⟩ := by
  constructor
  · exact (chat_retry_policy (fun _ => .error ⟨none, none, "Not Found", some 404⟩)
      (fun _ => ⟨none, none, "Not Found", some 404⟩)).1
      ⟨none, none, "Not Found", some 404⟩ rfl (by decide) (by decide) (by decide)
  · exact (chat_retry_policy
      (fun _ => .error ⟨none, none, "Internal Server Error", some 500⟩)
      (fun _ => ⟨none, none, "Internal Server Error", some 500⟩)).2.1
      (fun _ _ => rfl) (fun _ _ => by decide)

/-- C9: `checkIfComplete` is total (it never throws) and conservative: it
returns `false` whenever the page-snapshot call throws or the
completion-query model call fails, and it returns `true` only when the
leading forced `report_status` tool call of the model parses with
`is_complete = true`. -/
theorem checkIfComplete_conservative
    (snapshot : Except String CallToolResult)
    (llm : String → Except String ModelMsg)
    (parse : String → Option ReportArgs) :
    (∀ e, snapshot = .error e →
      checkIfComplete snapshot llm parse = false) ∧
    (∀ r e, snapshot = .ok r →
      llm (completionPromptOf
        (String.intercalate "\n" (r.content.map partTextJs))) = .error e →
      checkIfComplete snapshot llm parse = false) ∧
    (checkIfComplete snapshot llm parse = true →
      ∃ r resp tc args, snapshot = .ok r ∧
        llm (completionPromptOf
          (String.intercalate "\n" (r.content.map partTextJs))) = .ok resp ∧
        resp.toolCalls.head? = some tc ∧ tc.name = "report_status" ∧
        parse tc.arguments = some args ∧ args.is_complete = true) := by
  refine ⟨?_, ?_, ?_⟩
  · intro e he
    rw [he]
    rfl
  · intro r e hr hllm
    rw [hr]
    unfold checkIfComplete
    simp only [hllm]
  · intro h
    cases hs : snapshot with
    | error e =>
        rw [hs] at h
        simp [checkIfComplete] at h
    | ok r =>
        rw [hs] at h
        unfold checkIfComplete at h
        dsimp only at h
        cases hl : llm (completionPromptOf
            (String.intercalate "\n" (r.content.map partTextJs))) with
        | error e =>
            simp only [hl] at h
            exact absurd h (by simp)
        | ok resp =>
            simp only [hl] at h
            cases hh : resp.toolCalls.head? with
            | none =>
                simp only [hh] at h
                exact absurd h (by simp)
            | some tc =>
                simp only [hh] at h
                by_cases hn : tc.name = "report_status"
                · rw [if_pos hn] at h
                  cases hp : parse tc.arguments with
                  | none =>
                      simp only [hp] at h
                      exact absurd h (by simp)
                  | some args =>
                      simp only [hp] at h
                      exact ⟨r, resp, tc, args, rfl, hl, hh, hn, hp, h⟩
                · rw [if_neg hn] at h
                  exact absurd h (by simp)

/-- Witness for C9: a thrown snapshot and a failed model call both yield
`false`; a forced `report_status` reporting completion yields `true` through
the only path that can. -/
theorem checkIfComplete_conservative_witness :
    checkIfComplete (.error "net down") llmReportW parseReportW = false ∧
    checkIfComplete (.ok ⟨[Part.text "page"], false⟩)
      (fun _ => .error "model down") parseReportW = false ∧
    (∃ r resp tc args,
      (Except.ok ⟨[Part.text "page"], false⟩ :
        Except String CallToolResult) = .ok r ∧
      llmReportW (completionPromptOf
        (String.intercalate "\n" (r.content.map partTextJs))) = .ok resp ∧
      resp.toolCalls.head? = some tc ∧ tc.name = "report_status" ∧
      parseReportW tc.arguments = some args ∧ args.is_complete = true) := by
  refine ⟨?_, ?_, ?_⟩
  · exact (checkIfComplete_conservative (.error "net down") llmReportW
      parseReportW).1 "net down" rfl
  · exact (checkIfComplete_conservative (.ok ⟨[Part.text "page"], false⟩)
      (fun _ => .error "model down") parseReportW).2.1
      ⟨[Part.text "page"], false⟩ "model down" rfl rfl
  · exact (checkIfComplete_conservative (.ok ⟨[Part.text "page"], false⟩)
      llmReportW parseReportW).2.2 rfl

end Solaris
